import Mathlib

set_option maxRecDepth 8000

/-!
Verification of the agentic-wallet authorization pipeline, swarm-consensus
voting protocol and natural-language intent translator.

The definitions below are a shallow embedding of the TypeScript sources:
- PolicyEngine (policy.ts): kill switch, policy checks, per-principal state.
- SwarmConsensus (swarm-consensus.ts, config-based variant): voting.
- NLPIntentParseLayer (nlp-intent-parser.ts): pattern matchers.

JavaScript numbers are modelled as rationals. The system clock (Date.now) and
the external simulation capability are passed as explicit arguments. The one
place where IEEE semantics matter (an unguarded 0/0 producing NaN in the
consensus approval rate) is modelled with Option: none stands for NaN.
-/

namespace AgenticWallet

/-- Agent identifiers (src/types.ts: AgentId). -/
abbrev AgentId := String

/-- Transaction categories (src/types.ts: enum TransactionType). -/
inductive TransactionType
  | TRANSFER_SOL
  | TRANSFER_SPL
  | SWAP
  | STAKE
  | CUSTOM
deriving DecidableEq, Repr

/-- Category-specific parameters (src/types.ts: TransactionParams tagged
union). The CUSTOM payload keeps only the field the policy engine reads
(programId); the opaque instruction data and account list are never
inspected by the verified code. -/
inductive TransactionParams
  | transferSol (recipient : String) (lamports : ℚ)
  | transferSpl (recipient mint : String) (amount : ℚ) (decimals : ℕ)
  | swap (inputMint outputMint : String) (amountIn minimumAmountOut : ℚ)
  | custom (programId : String)
deriving DecidableEq, Repr

/-- A transaction intent (src/types.ts: TransactionIntent). -/
structure TransactionIntent where
  agentId : AgentId
  type : TransactionType
  description : String
  params : TransactionParams
  timestamp : ℚ
  confidence : ℚ
deriving DecidableEq, Repr

/-- A policy (src/types.ts: AgentPolicy). minConfidence is optional in the
source and is read through a nullish-coalescing default of 0. -/
structure AgentPolicy where
  maxTransactionLamports : ℚ
  maxHourlySpendLamports : ℚ
  txCooldownMs : ℚ
  maxTxPerHour : ℚ
  allowlistedPrograms : List String
  requireSimulation : Bool
  allowSolTransfers : Bool
  allowSplTransfers : Bool
  minConfidence : Option ℚ
deriving DecidableEq, Repr

/-- Result of a dry-run simulation (src/types.ts: SimulationResult). -/
structure SimulationResult where
  success : Bool
  logs : List String
  unitsConsumed : ℚ
  error : Option String
deriving DecidableEq, Repr

/-- One policy violation. The source pushes rendered strings onto a
violations array; the constructors below carry exactly the data each
message template interpolates, and renderViolation recovers the message
shape. -/
inductive Violation
  | killSwitch (reason : String)
  | confidence (conf threshold : ℚ)
  | solNotAllowed
  | splNotAllowed
  | perTxLimit (amount limit : ℚ)
  | hourlyLimit (total limit : ℚ)
  | cooldown (elapsed required : ℚ)
  | rateLimit (count : ℕ) (limit : ℚ)
  | programNotAllowed (programId : String)
  | simulationFailed (error : String)
deriving DecidableEq, Repr

/-- The message templates of policy.ts (numeric formatting approximated by
toString on rationals). -/
def renderViolation : Violation → String
  | .killSwitch r => "Kill switch active: " ++ r
  | .confidence c m =>
      "Confidence " ++ toString (c * 100) ++ "% below threshold " ++
        toString (m * 100) ++ "%"
  | .solNotAllowed => "SOL transfers are not allowed by policy"
  | .splNotAllowed => "SPL token transfers are not allowed by policy"
  | .perTxLimit a l =>
      "Transaction amount (" ++ toString a ++ " lamports) exceeds per-tx limit (" ++
        toString l ++ " lamports)"
  | .hourlyLimit t l =>
      "Hourly spend would exceed limit: " ++ toString t ++ " > " ++
        toString l ++ " lamports"
  | .cooldown e r =>
      "Cooldown not met: " ++ toString e ++ "ms elapsed, " ++
        toString r ++ "ms required"
  | .rateLimit c l =>
      "Hourly transaction limit reached: " ++ toString c ++ "/" ++ toString l
  | .programNotAllowed p => "Program " ++ p ++ " is not in the allowlist"
  | .simulationFailed e => "Simulation failed: " ++ e

/-- Result of a policy evaluation (src/types.ts: PolicyEvaluation). -/
structure PolicyEvaluation where
  allowed : Bool
  reason : String
  violations : List Violation
  simulationResult : Option SimulationResult
deriving DecidableEq, Repr

/-- One entry of a principal transaction-history window (policy.ts:
txHistory map values). -/
structure HistEntry where
  timestamp : ℚ
  lamports : ℚ
deriving DecidableEq, Repr

/-- The PolicyEngine instance state: the two per-agent maps (modelled as
total functions defaulting to the empty history and to no last-transaction
time, matching the get-or-default reads of the source) plus the kill
switch flag and reason. -/
structure EngineState where
  txHistory : AgentId → List HistEntry
  lastTxTime : AgentId → Option ℚ
  killed : Bool
  killReason : String

/-- Pointwise map update (Map.set). -/
def mapSet {β : Type} (f : AgentId → β) (a : AgentId) (v : β) : AgentId → β :=
  fun b => if b = a then v else f b

/-- Fresh engine state (constructor of PolicyEngine). -/
def EngineState.init : EngineState :=
  { txHistory := fun _ => []
    lastTxTime := fun _ => none
    killed := false
    killReason := "" }

/-- PolicyEngine.kill. -/
def EngineState.kill (st : EngineState) (reason : String) : EngineState :=
  { st with killed := true, killReason := reason }

/-- PolicyEngine.resume. -/
def EngineState.resume (st : EngineState) : EngineState :=
  { st with killed := false, killReason := "" }

/-- PolicyEngine.isKilled. -/
def EngineState.isKilled (st : EngineState) : Bool := st.killed

namespace PolicyEngine

/-- policy.ts getIntentAmount. The wildcard sub-branches correspond to a
params payload whose shape disagrees with the intent type tag; there the
source would read an absent field (undefined). Every intent the repository
constructs carries a matching tag, and all theorems below only use matching
intents. -/
def getIntentAmount (intent : TransactionIntent) : ℚ :=
  match intent.type with
  | .TRANSFER_SOL =>
      match intent.params with
      | .transferSol _ lamports => lamports
      | _ => 0
  | .TRANSFER_SPL => 0
  | .SWAP =>
      match intent.params with
      | .swap _ _ amountIn _ => if amountIn = 0 then 0 else amountIn
      | _ => 0
  | .STAKE => 0
  | .CUSTOM => 0

/-- policy.ts getHourlySpend. -/
def getHourlySpend (st : EngineState) (now : ℚ) (agentId : AgentId) : ℚ :=
  let hourAgo := now - 3600000
  (((st.txHistory agentId).filter fun h => decide (hourAgo < h.timestamp)).map
    HistEntry.lamports).sum

/-- policy.ts getRecentTxCount. -/
def getRecentTxCount (st : EngineState) (now : ℚ) (agentId : AgentId) : ℕ :=
  let hourAgo := now - 3600000
  ((st.txHistory agentId).filter fun h => decide (hourAgo < h.timestamp)).length

/-- policy.ts checkConfidence. -/
def checkConfidence (intent : TransactionIntent) (policy : AgentPolicy) :
    List Violation :=
  let minConfidence := policy.minConfidence.getD 0
  if intent.confidence < minConfidence then
    [.confidence intent.confidence minConfidence]
  else []

/-- policy.ts checkTypePermissions. -/
def checkTypePermissions (intent : TransactionIntent) (policy : AgentPolicy) :
    List Violation :=
  (if intent.type = .TRANSFER_SOL ∧ policy.allowSolTransfers = false then
    [Violation.solNotAllowed] else []) ++
  (if intent.type = .TRANSFER_SPL ∧ policy.allowSplTransfers = false then
    [Violation.splNotAllowed] else [])

/-- policy.ts checkSpendingLimits. -/
def checkSpendingLimits (st : EngineState) (now : ℚ) (intent : TransactionIntent)
    (policy : AgentPolicy) : List Violation :=
  let txAmount := getIntentAmount intent
  (if policy.maxTransactionLamports < txAmount then
    [Violation.perTxLimit txAmount policy.maxTransactionLamports] else []) ++
  (let hourlySpend := getHourlySpend st now intent.agentId
   if policy.maxHourlySpendLamports < hourlySpend + txAmount then
    [Violation.hourlyLimit (hourlySpend + txAmount) policy.maxHourlySpendLamports]
   else [])

/-- policy.ts checkRateLimits. The stored last-transaction time is read with
a bare truthiness test in the source, so an absent entry and a stored 0 both
skip the cooldown check. -/
def checkRateLimits (st : EngineState) (now : ℚ) (intent : TransactionIntent)
    (policy : AgentPolicy) : List Violation :=
  (match st.lastTxTime intent.agentId with
   | none => []
   | some lastTx =>
     if lastTx = 0 then []
     else
       let elapsed := now - lastTx
       if elapsed < policy.txCooldownMs then
         [.cooldown elapsed policy.txCooldownMs]
       else []) ++
  (let txCount := getRecentTxCount st now intent.agentId
   if policy.maxTxPerHour ≤ (txCount : ℚ) then
     [.rateLimit txCount policy.maxTxPerHour]
   else [])

/-- policy.ts checkProgramAllowlist. SOL/SPL/SWAP intents return early
(system or token programs, always allowed); STAKE falls through both
branches untouched; CUSTOM intents are checked against the allowlist. The
wildcard branch is a CUSTOM intent whose payload lacks a programId: the
source reads undefined there, which an allowlist of strings never
contains. -/
def checkProgramAllowlist (intent : TransactionIntent) (policy : AgentPolicy) :
    List Violation :=
  match intent.type with
  | .TRANSFER_SOL => []
  | .TRANSFER_SPL => []
  | .SWAP => []
  | .STAKE => []
  | .CUSTOM =>
    match intent.params with
    | .custom programId =>
        if policy.allowlistedPrograms.contains programId then []
        else [.programNotAllowed programId]
    | _ => [.programNotAllowed "undefined"]

/-- policy.ts recordTransaction: append the new entry, update the
last-transaction time, purge entries older than two hours. -/
def recordTransaction (st : EngineState) (now : ℚ) (intent : TransactionIntent) :
    EngineState :=
  let amount := getIntentAmount intent
  let hist := st.txHistory intent.agentId ++ [⟨now, amount⟩]
  let twoHoursAgo := now - 7200000
  let purged := hist.filter fun h => decide (twoHoursAgo < h.timestamp)
  { st with
    txHistory := mapSet st.txHistory intent.agentId purged
    lastTxTime := mapSet st.lastTxTime intent.agentId (some now) }

/-- policy.ts evaluate. now stands for Date.now() and simRes for the result
the external wallet-service simulation would return (it is consulted only
when the source would actually call it). Returns the evaluation and the
updated engine state. -/
def evaluate (st : EngineState) (now : ℚ) (simRes : SimulationResult)
    (intent : TransactionIntent) (policy : AgentPolicy) :
    PolicyEvaluation × EngineState :=
  if st.killed then
    ({ allowed := false
       reason := "EMERGENCY HALT: " ++ st.killReason
       violations := [Violation.killSwitch st.killReason]
       simulationResult := none }, st)
  else
    let vs :=
      checkConfidence intent policy ++
      checkTypePermissions intent policy ++
      checkSpendingLimits st now intent policy ++
      checkRateLimits st now intent policy ++
      checkProgramAllowlist intent policy
    let useSim := vs.isEmpty && policy.requireSimulation
    let simulationResult := if useSim then some simRes else none
    let vs' :=
      if useSim && !simRes.success then
        vs ++ [Violation.simulationFailed (simRes.error.getD "undefined")]
      else vs
    let allowed := vs'.isEmpty
    let reason :=
      if allowed then "All policy checks passed"
      else "Policy violations: " ++
        String.intercalate "; " (vs'.map renderViolation)
    let ev : PolicyEvaluation :=
      { allowed := allowed
        reason := reason
        violations := vs'
        simulationResult := simulationResult }
    let st' := if allowed then recordTransaction st now intent else st
    (ev, st')

end PolicyEngine

/-! Sample inputs used by the closed witness theorems. -/

/-- A successful simulation result (the tests stub the dry run to success). -/
def simOk : SimulationResult :=
  { success := true, logs := [], unitsConsumed := 0, error := none }

/-- A well-formed value-transfer intent. -/
def sampleIntent : TransactionIntent :=
  { agentId := "alice"
    type := .TRANSFER_SOL
    description := "send"
    params := .transferSol "bobPk" 1000000
    timestamp := 0
    confidence := 0.9 }

/-- A permissive sample policy. -/
def samplePolicy : AgentPolicy :=
  { maxTransactionLamports := 100000000
    maxHourlySpendLamports := 500000000
    txCooldownMs := 1000
    maxTxPerHour := 10
    allowlistedPrograms := []
    requireSimulation := false
    allowSolTransfers := true
    allowSplTransfers := true
    minConfidence := none }

section RatComputation

attribute [local semireducible] Rat.add Rat.sub Rat.mul Rat.inv Rat.ofScientific

/-- C1: if the kill switch is active, evaluate returns the halt verdict — a
denial whose violations list is exactly the single kill-switch entry naming
the halt reason — and leaves the state untouched. The right-hand side does
not mention the intent, the policy or the simulation result, so every other
check is skipped. -/
theorem evaluate_halt_dominance (st : EngineState) (now : ℚ)
    (simRes : SimulationResult) (intent : TransactionIntent)
    (policy : AgentPolicy) (h : st.killed = true) :
    PolicyEngine.evaluate st now simRes intent policy =
      ({ allowed := false
         reason := "EMERGENCY HALT: " ++ st.killReason
         violations := [Violation.killSwitch st.killReason]
         simulationResult := none }, st) := by
  simp [PolicyEngine.evaluate, h]

/-- Closed witness for evaluate_halt_dominance. -/
theorem evaluate_halt_dominance_witness :
    (EngineState.init.kill "anomaly detected").killed = true ∧
    PolicyEngine.evaluate (EngineState.init.kill "anomaly detected") 1000 simOk
        sampleIntent samplePolicy =
      ({ allowed := false
         reason := "EMERGENCY HALT: " ++
           (EngineState.init.kill "anomaly detected").killReason
         violations :=
           [Violation.killSwitch (EngineState.init.kill "anomaly detected").killReason]
         simulationResult := none }, EngineState.init.kill "anomaly detected") := by
  refine ⟨rfl, ?_⟩
  exact evaluate_halt_dominance _ _ _ _ _ rfl

/-- C3: every verdict evaluate returns, the kill-switch branch included,
satisfies allowed == (violations.length == 0). -/
theorem evaluate_allowed_iff_no_violations (st : EngineState) (now : ℚ)
    (simRes : SimulationResult) (intent : TransactionIntent)
    (policy : AgentPolicy) :
    (PolicyEngine.evaluate st now simRes intent policy).1.allowed = true ↔
      (PolicyEngine.evaluate st now simRes intent policy).1.violations.length = 0 := by
  by_cases hk : st.killed
  · simp [PolicyEngine.evaluate, hk]
  · simp only [PolicyEngine.evaluate, hk, if_false, Bool.if_false_left]
    simp [List.isEmpty_iff, List.length_eq_zero]

/-- C2: evaluate updates the engine state exactly when the verdict is an
approval, and the update is precisely recordTransaction: the calling
principal's window gets the pair (now, extracted amount) appended, entries
at least two hours old are purged, and the principal's last-operation time
becomes now. On denial (the kill-switch branch included) the state is
returned unchanged. -/
theorem evaluate_mutates_iff_allowed (st : EngineState) (now : ℚ)
    (simRes : SimulationResult) (intent : TransactionIntent)
    (policy : AgentPolicy) :
    ((PolicyEngine.evaluate st now simRes intent policy).2 =
      if (PolicyEngine.evaluate st now simRes intent policy).1.allowed = true then
        PolicyEngine.recordTransaction st now intent
      else st) ∧
    PolicyEngine.recordTransaction st now intent =
      { st with
        txHistory := mapSet st.txHistory intent.agentId
          ((st.txHistory intent.agentId ++
              [HistEntry.mk now (PolicyEngine.getIntentAmount intent)]).filter
            fun h => decide (now - 7200000 < h.timestamp))
        lastTxTime := mapSet st.lastTxTime intent.agentId (some now) } := by
  refine ⟨?_, rfl⟩
  by_cases hk : st.killed
  · unfold PolicyEngine.evaluate
    rw [hk]
    rfl
  · unfold PolicyEngine.evaluate
    rw [Bool.not_eq_true] at hk
    rw [hk]
    rfl

/-- The confidence check never produces a cooldown violation. -/
theorem cooldown_not_mem_checkConfidence (e r : ℚ) (intent : TransactionIntent)
    (policy : AgentPolicy) :
    Violation.cooldown e r ∉ PolicyEngine.checkConfidence intent policy := by
  simp only [PolicyEngine.checkConfidence]
  split_ifs <;> simp

/-- The type-permission check never produces a cooldown violation. -/
theorem cooldown_not_mem_checkTypePermissions (e r : ℚ) (intent : TransactionIntent)
    (policy : AgentPolicy) :
    Violation.cooldown e r ∉ PolicyEngine.checkTypePermissions intent policy := by
  unfold PolicyEngine.checkTypePermissions
  split_ifs <;> simp

/-- The spending-limit check never produces a cooldown violation. -/
theorem cooldown_not_mem_checkSpendingLimits (e r : ℚ) (st : EngineState) (now : ℚ)
    (intent : TransactionIntent) (policy : AgentPolicy) :
    Violation.cooldown e r ∉ PolicyEngine.checkSpendingLimits st now intent policy := by
  simp only [PolicyEngine.checkSpendingLimits]
  split_ifs <;> simp

/-- The allowlist check never produces a cooldown violation. -/
theorem cooldown_not_mem_checkProgramAllowlist (e r : ℚ) (intent : TransactionIntent)
    (policy : AgentPolicy) :
    Violation.cooldown e r ∉ PolicyEngine.checkProgramAllowlist intent policy := by
  unfold PolicyEngine.checkProgramAllowlist
  rcases ht : intent.type <;> simp only []
  · simp
  · simp
  · simp
  · simp
  · rcases hp : intent.params <;> simp

/-- Exactly which cooldown violation the rate-limit check produces, and
when. -/
theorem cooldown_mem_checkRateLimits_iff (e r : ℚ) (st : EngineState) (now : ℚ)
    (intent : TransactionIntent) (policy : AgentPolicy) :
    Violation.cooldown e r ∈ PolicyEngine.checkRateLimits st now intent policy ↔
      ∃ t, st.lastTxTime intent.agentId = some t ∧ t ≠ 0 ∧
        now - t < policy.txCooldownMs ∧ e = now - t ∧ r = policy.txCooldownMs := by
  unfold PolicyEngine.checkRateLimits
  rcases h : st.lastTxTime intent.agentId with _ | t
  · simp only [h, List.nil_append]
    split_ifs <;> simp
  · simp only [h, Option.some.injEq]
    split_ifs with h1 h2 h3 h4 h5 <;> simp_all

/-- Membership of a cooldown violation in an evaluate verdict reduces to
membership in the rate-limit check output (when the kill switch is off). -/
theorem cooldown_mem_evaluate_iff (e r : ℚ) (st : EngineState) (now : ℚ)
    (simRes : SimulationResult) (intent : TransactionIntent)
    (policy : AgentPolicy) (hk : st.killed = false) :
    Violation.cooldown e r ∈
        (PolicyEngine.evaluate st now simRes intent policy).1.violations ↔
      Violation.cooldown e r ∈ PolicyEngine.checkRateLimits st now intent policy := by
  simp only [PolicyEngine.evaluate, hk, Bool.false_eq_true, if_false]
  split_ifs <;>
    simp [List.mem_append, cooldown_not_mem_checkConfidence,
      cooldown_not_mem_checkTypePermissions, cooldown_not_mem_checkSpendingLimits,
      cooldown_not_mem_checkProgramAllowlist]

/-- C7: with the kill switch off, if the principal has a recorded (nonzero)
last-operation time t, the verdict contains the cooldown violation exactly
when now - t is below the policy cooldown; when now - t is at least the
cooldown the verdict contains no cooldown violation at all; and with no
recorded prior operation the cooldown check is skipped, so no cooldown
violation can appear. -/
theorem evaluate_cooldown_check (st : EngineState) (now : ℚ)
    (simRes : SimulationResult) (intent : TransactionIntent)
    (policy : AgentPolicy) (hk : st.killed = false) :
    (∀ t, st.lastTxTime intent.agentId = some t → 0 < t →
      ((now - t < policy.txCooldownMs →
          Violation.cooldown (now - t) policy.txCooldownMs ∈
            (PolicyEngine.evaluate st now simRes intent policy).1.violations) ∧
       (policy.txCooldownMs ≤ now - t →
          ∀ e r, Violation.cooldown e r ∉
            (PolicyEngine.evaluate st now simRes intent policy).1.violations))) ∧
    (st.lastTxTime intent.agentId = none →
      ∀ e r, Violation.cooldown e r ∉
        (PolicyEngine.evaluate st now simRes intent policy).1.violations) := by
  constructor
  · intro t ht htpos
    constructor
    · intro hlt
      rw [cooldown_mem_evaluate_iff _ _ _ _ _ _ _ hk,
        cooldown_mem_checkRateLimits_iff]
      exact ⟨t, ht, ne_of_gt htpos, hlt, rfl, rfl⟩
    · intro hge e r hmem
      rw [cooldown_mem_evaluate_iff _ _ _ _ _ _ _ hk,
        cooldown_mem_checkRateLimits_iff] at hmem
      obtain ⟨t', ht', _, hlt', _, _⟩ := hmem
      rw [ht] at ht'
      cases ht'
      exact absurd hlt' (not_lt.mpr hge)
  · intro hnone e r hmem
    rw [cooldown_mem_evaluate_iff _ _ _ _ _ _ _ hk,
      cooldown_mem_checkRateLimits_iff] at hmem
    obtain ⟨t', ht', _⟩ := hmem
    rw [hnone] at ht'
    cases ht'

/-- A state whose only recorded last-operation time is 1000 for alice. -/
def cooldownState : EngineState :=
  { txHistory := fun _ => []
    lastTxTime := fun a => if a = "alice" then some 1000 else none
    killed := false
    killReason := "" }

/-- Closed witness for evaluate_cooldown_check. -/
theorem evaluate_cooldown_check_witness :
    Violation.cooldown ((1500 : ℚ) - 1000) samplePolicy.txCooldownMs ∈
      (PolicyEngine.evaluate cooldownState 1500 simOk sampleIntent samplePolicy).1.violations ∧
    Violation.cooldown ((5000 : ℚ) - 1000) samplePolicy.txCooldownMs ∉
      (PolicyEngine.evaluate cooldownState 5000 simOk sampleIntent samplePolicy).1.violations ∧
    Violation.cooldown ((1500 : ℚ) - 1000) samplePolicy.txCooldownMs ∉
      (PolicyEngine.evaluate EngineState.init 1500 simOk sampleIntent samplePolicy).1.violations := by
  refine ⟨?_, ?_, ?_⟩
  · exact ((evaluate_cooldown_check cooldownState 1500 simOk sampleIntent
      samplePolicy rfl).1 1000 rfl (by decide)).1 (by decide)
  · exact ((evaluate_cooldown_check cooldownState 5000 simOk sampleIntent
      samplePolicy rfl).1 1000 rfl (by decide)).2 (by decide) _ _
  · exact (evaluate_cooldown_check EngineState.init 1500 simOk sampleIntent
      samplePolicy rfl).2 rfl _ _

/-- C6: the notional amount the pipeline uses is category-specific — the
lamports of a value transfer, the input quantity of an exchange, zero for
asset transfers, stakes and arbitrary calls — and therefore an asset
transfer contributes nothing to the spending-limit check (its outcome is
independent of the transferred token amount) while remaining subject to the
category-permission check (and the rate-limit and allowlist checks, whose
outcomes ignore the params payload entirely). -/
theorem getIntentAmount_category_specific :
    (∀ a d r l ts c,
      PolicyEngine.getIntentAmount ⟨a, .TRANSFER_SOL, d, .transferSol r l, ts, c⟩ = l) ∧
    (∀ a d r m amt dec ts c,
      PolicyEngine.getIntentAmount ⟨a, .TRANSFER_SPL, d, .transferSpl r m amt dec, ts, c⟩ = 0) ∧
    (∀ a d im om aIn mOut ts c,
      PolicyEngine.getIntentAmount ⟨a, .SWAP, d, .swap im om aIn mOut, ts, c⟩ = aIn) ∧
    (∀ a d p ts c, PolicyEngine.getIntentAmount ⟨a, .STAKE, d, p, ts, c⟩ = 0) ∧
    (∀ a d pid ts c,
      PolicyEngine.getIntentAmount ⟨a, .CUSTOM, d, .custom pid, ts, c⟩ = 0) ∧
    (∀ st now a d p q ts c policy,
      PolicyEngine.checkSpendingLimits st now ⟨a, .TRANSFER_SPL, d, p, ts, c⟩ policy =
        PolicyEngine.checkSpendingLimits st now ⟨a, .TRANSFER_SPL, d, q, ts, c⟩ policy) ∧
    (∀ st now a d p q ts c policy,
      PolicyEngine.checkRateLimits st now ⟨a, .TRANSFER_SPL, d, p, ts, c⟩ policy =
        PolicyEngine.checkRateLimits st now ⟨a, .TRANSFER_SPL, d, q, ts, c⟩ policy) ∧
    (∀ a d p ts c policy,
      PolicyEngine.checkProgramAllowlist ⟨a, .TRANSFER_SPL, d, p, ts, c⟩ policy = []) ∧
    (∀ a d p ts c policy, policy.allowSplTransfers = false →
      Violation.splNotAllowed ∈
        PolicyEngine.checkTypePermissions ⟨a, .TRANSFER_SPL, d, p, ts, c⟩ policy) := by
  refine ⟨fun _ _ _ _ _ _ => rfl, fun _ _ _ _ _ _ _ _ => rfl, ?_,
    fun _ _ _ _ _ => rfl, fun _ _ _ _ _ => rfl,
    fun _ _ _ _ _ _ _ _ _ => rfl, fun _ _ _ _ _ _ _ _ _ => rfl,
    fun _ _ _ _ _ _ => rfl, ?_⟩
  · intro a d im om aIn mOut ts c
    unfold PolicyEngine.getIntentAmount
    by_cases h : aIn = 0 <;> simp [h]
  · intro a d p ts c policy h
    simp [PolicyEngine.checkTypePermissions, h]

/-- Closed witness for getIntentAmount_category_specific. -/
theorem getIntentAmount_category_specific_witness :
    PolicyEngine.getIntentAmount
        ⟨"alice", .TRANSFER_SPL, "tokens", .transferSpl "bobPk" "mintX" 123456 6, 0, 1⟩ = 0 ∧
    Violation.splNotAllowed ∈
      PolicyEngine.checkTypePermissions
        ⟨"alice", .TRANSFER_SPL, "tokens", .transferSpl "bobPk" "mintX" 123456 6, 0, 1⟩
        { samplePolicy with allowSplTransfers := false } := by
  constructor
  · exact getIntentAmount_category_specific.2.1 "alice" "tokens" "bobPk" "mintX" 123456 6 0 1
  · exact getIntentAmount_category_specific.2.2.2.2.2.2.2.2 "alice" "tokens"
      (.transferSpl "bobPk" "mintX" 123456 6) 0 1 _ rfl

/-- A plain value-transfer intent of the given amount, as submitted in the
window-correctness scenario. -/
def mkTransferIntent (agent : AgentId) (amount : ℚ) : TransactionIntent :=
  { agentId := agent
    type := .TRANSFER_SOL
    description := "transfer"
    params := .transferSol "recipient" amount
    timestamp := 0
    confidence := 1 }

/-- A policy whose binding limit is the hourly spend cap H; the per-tx cap M
and hourly count cap K are the scenario's side conditions, and every other
knob is permissive. -/
def spendPolicy (H M K : ℚ) : AgentPolicy :=
  { maxTransactionLamports := M
    maxHourlySpendLamports := H
    txCooldownMs := 0
    maxTxPerHour := K
    allowlistedPrograms := []
    requireSimulation := false
    allowSolTransfers := true
    allowSplTransfers := true
    minConfidence := none }

/-- Submit a sequence of (time, amount) operations for one principal,
collecting each verdict's allowed flag and threading the engine state. -/
def submitOps (agent : AgentId) (policy : AgentPolicy) :
    List (ℚ × ℚ) → EngineState → List Bool × EngineState
  | [], st => ([], st)
  | (t, a) :: rest, st =>
    let r := PolicyEngine.evaluate st t simOk (mkTransferIntent agent a) policy
    let next := submitOps agent policy rest r.2
    (r.1.allowed :: next.1, next.2)

/-- Reference semantics for the hourly cap: an operation is approved exactly
when the sum of the previously approved amounts plus its own stays within
H. -/
def greedyAllowed (H : ℚ) : ℚ → List ℚ → List Bool
  | _, [] => []
  | s, a :: as =>
    let ok := decide (s + a ≤ H)
    ok :: greedyAllowed H (if ok then s + a else s) as

/-- Total recorded amount of a history window. -/
def sumAmounts (l : List HistEntry) : ℚ := (l.map HistEntry.lamports).sum

/-- When every window entry is within the hour, getHourlySpend is the plain
sum of the window. -/
theorem getHourlySpend_of_window (st : EngineState) (t : ℚ) (agent : AgentId)
    (hhist : ∀ e ∈ st.txHistory agent, t - 3600000 < e.timestamp) :
    PolicyEngine.getHourlySpend st t agent = sumAmounts (st.txHistory agent) := by
  have hfe : List.filter (fun h => decide (t - 3600000 < h.timestamp))
      (st.txHistory agent) = st.txHistory agent :=
    List.filter_eq_self.mpr fun e he => decide_eq_true (hhist e he)
  show (((st.txHistory agent).filter fun h =>
      decide (t - 3600000 < h.timestamp)).map HistEntry.lamports).sum = _
  rw [hfe]
  rfl

/-- When every window entry is within the hour, getRecentTxCount is the
window length. -/
theorem getRecentTxCount_of_window (st : EngineState) (t : ℚ) (agent : AgentId)
    (hhist : ∀ e ∈ st.txHistory agent, t - 3600000 < e.timestamp) :
    PolicyEngine.getRecentTxCount st t agent = (st.txHistory agent).length := by
  have hfe : List.filter (fun h => decide (t - 3600000 < h.timestamp))
      (st.txHistory agent) = st.txHistory agent :=
    List.filter_eq_self.mpr fun e he => decide_eq_true (hhist e he)
  show ((st.txHistory agent).filter fun h =>
      decide (t - 3600000 < h.timestamp)).length = _
  rw [hfe]

/-- One evaluate step under spendPolicy: with the side conditions met, the
verdict is an approval exactly when the window sum plus the new amount is
within H, and the state update appends the new entry without purging
anything. -/
theorem evaluate_spendPolicy_step (st : EngineState) (agent : AgentId)
    (H M K t a : ℚ)
    (hk : st.killed = false)
    (haM : a ≤ M)
    (hhist : ∀ e ∈ st.txHistory agent, t - 3600000 < e.timestamp)
    (hcount : ((st.txHistory agent).length : ℚ) < K)
    (hlast : ∀ t', st.lastTxTime agent = some t' → t' ≤ t) :
    ((PolicyEngine.evaluate st t simOk (mkTransferIntent agent a)
        (spendPolicy H M K)).1.allowed
      = decide (sumAmounts (st.txHistory agent) + a ≤ H)) ∧
    ((PolicyEngine.evaluate st t simOk (mkTransferIntent agent a)
        (spendPolicy H M K)).2 =
      if sumAmounts (st.txHistory agent) + a ≤ H then
        { st with
          txHistory := mapSet st.txHistory agent
            (st.txHistory agent ++ [HistEntry.mk t a])
          lastTxTime := mapSet st.lastTxTime agent (some t) }
      else st) := by
  have hagent : (mkTransferIntent agent a).agentId = agent := rfl
  have hconf : PolicyEngine.checkConfidence (mkTransferIntent agent a)
      (spendPolicy H M K) = [] := by
    simp [PolicyEngine.checkConfidence, mkTransferIntent, spendPolicy]
  have htype : PolicyEngine.checkTypePermissions (mkTransferIntent agent a)
      (spendPolicy H M K) = [] := rfl
  have hprog : PolicyEngine.checkProgramAllowlist (mkTransferIntent agent a)
      (spendPolicy H M K) = [] := rfl
  have hamt : PolicyEngine.getIntentAmount (mkTransferIntent agent a) = a := rfl
  have hspend : PolicyEngine.checkSpendingLimits st t (mkTransferIntent agent a)
      (spendPolicy H M K) =
      if H < sumAmounts (st.txHistory agent) + a then
        [Violation.hourlyLimit (sumAmounts (st.txHistory agent) + a) H]
      else [] := by
    simp only [PolicyEngine.checkSpendingLimits, hamt, hagent,
      getHourlySpend_of_window st t agent hhist, spendPolicy]
    rw [if_neg (not_lt.mpr haM), List.nil_append]
  have hrate : PolicyEngine.checkRateLimits st t (mkTransferIntent agent a)
      (spendPolicy H M K) = [] := by
    simp only [PolicyEngine.checkRateLimits, hagent,
      getRecentTxCount_of_window st t agent hhist, spendPolicy]
    rw [if_neg (not_le.mpr hcount), List.append_nil]
    rcases hlt : st.lastTxTime agent with _ | t'
    · rfl
    · have ht' := hlast t' hlt
      by_cases h0 : t' = 0
      · simp [h0]
      · dsimp only
        rw [if_neg h0, if_neg]
        exact not_lt.mpr (sub_nonneg.mpr ht')
  have hvs : PolicyEngine.checkConfidence (mkTransferIntent agent a)
        (spendPolicy H M K) ++
      PolicyEngine.checkTypePermissions (mkTransferIntent agent a)
        (spendPolicy H M K) ++
      PolicyEngine.checkSpendingLimits st t (mkTransferIntent agent a)
        (spendPolicy H M K) ++
      PolicyEngine.checkRateLimits st t (mkTransferIntent agent a)
        (spendPolicy H M K) ++
      PolicyEngine.checkProgramAllowlist (mkTransferIntent agent a)
        (spendPolicy H M K) =
      (if H < sumAmounts (st.txHistory agent) + a then
        [Violation.hourlyLimit (sumAmounts (st.txHistory agent) + a) H]
      else []) := by
    rw [hconf, htype, hspend, hrate, hprog]
    simp
  have hrec : PolicyEngine.recordTransaction st t (mkTransferIntent agent a) =
      { st with
        txHistory := mapSet st.txHistory agent
          (st.txHistory agent ++ [HistEntry.mk t a])
        lastTxTime := mapSet st.lastTxTime agent (some t) } := by
    unfold PolicyEngine.recordTransaction
    simp only [hamt, hagent]
    congr 1
    rw [List.filter_eq_self.mpr]
    intro e he
    rcases List.mem_append.mp he with h | h
    · have := hhist e h
      apply decide_eq_true
      have h2 : t - 7200000 < t - 3600000 := by norm_num
      exact lt_trans h2 this
    · rcases List.mem_singleton.mp h with rfl
      apply decide_eq_true
      show t - 7200000 < t
      norm_num
  simp only [PolicyEngine.evaluate, hk, Bool.false_eq_true, if_false, hvs]
  by_cases hH : H < sumAmounts (st.txHistory agent) + a
  · rw [if_pos hH]
    constructor
    · simp [decide_eq_false (not_le.mpr hH)]
    · simp [if_neg (not_le.mpr hH)]
  · rw [if_neg hH]
    have hle := not_lt.mp hH
    constructor
    · simp [decide_eq_true hle, spendPolicy]
    · simp [if_pos hle, spendPolicy, hrec]
      exact hk

/-- Generalized greedy correspondence for submitOps, by induction along the
operation sequence with the scenario invariants carried on the state. -/
theorem submitOps_greedy_aux (agent : AgentId) (H M K : ℚ)
    (ops : List (ℚ × ℚ)) (st : EngineState)
    (hk : st.killed = false)
    (hM : ∀ p ∈ ops, p.2 ≤ M)
    (hwin : ∀ p ∈ ops, ∀ e ∈ st.txHistory agent, p.1 - 3600000 < e.timestamp)
    (hcount : ((st.txHistory agent).length : ℚ) + ops.length ≤ K)
    (hlast : ∀ t', st.lastTxTime agent = some t' → ∀ p ∈ ops, t' ≤ p.1)
    (hpw : ops.Pairwise fun p q => p.1 ≤ q.1 ∧ q.1 - p.1 < 3600000) :
    (submitOps agent (spendPolicy H M K) ops st).1 =
      greedyAllowed H (sumAmounts (st.txHistory agent)) (ops.map Prod.snd) := by
  induction ops generalizing st with
  | nil => rfl
  | cons p rest ih =>
    obtain ⟨t, a⟩ := p
    have hmem : (t, a) ∈ (t, a) :: rest := List.mem_cons_self _ _
    have hhead : ∀ e ∈ st.txHistory agent, t - 3600000 < e.timestamp :=
      hwin (t, a) hmem
    have haM : a ≤ M := hM (t, a) hmem
    have hcount1 : ((st.txHistory agent).length : ℚ) < K := by
      have h1 : (((t, a) :: rest).length : ℚ) = rest.length + 1 := by
        push_cast [List.length_cons]
        ring
      rw [h1] at hcount
      have h2 : (0 : ℚ) ≤ rest.length := Nat.cast_nonneg _
      linarith
    have hlast1 : ∀ t', st.lastTxTime agent = some t' → t' ≤ t :=
      fun t' h => hlast t' h (t, a) hmem
    obtain ⟨hrel, hpw'⟩ := List.pairwise_cons.mp hpw
    have step := evaluate_spendPolicy_step st agent H M K t a hk haM hhead
      hcount1 hlast1
    show (PolicyEngine.evaluate st t simOk (mkTransferIntent agent a)
        (spendPolicy H M K)).1.allowed ::
      (submitOps agent (spendPolicy H M K) rest
        (PolicyEngine.evaluate st t simOk (mkTransferIntent agent a)
          (spendPolicy H M K)).2).1 = _
    rw [step.1, step.2, List.map_cons]
    show _ = decide (sumAmounts (st.txHistory agent) + a ≤ H) ::
      greedyAllowed H
        (if decide (sumAmounts (st.txHistory agent) + a ≤ H) = true then
          sumAmounts (st.txHistory agent) + a
        else sumAmounts (st.txHistory agent)) (rest.map Prod.snd)
    by_cases hH : sumAmounts (st.txHistory agent) + a ≤ H
    · rw [if_pos hH, if_pos (by rw [decide_eq_true hH])]
      congr 1
      set st' : EngineState :=
        { st with
          txHistory := mapSet st.txHistory agent
            (st.txHistory agent ++ [HistEntry.mk t a])
          lastTxTime := mapSet st.lastTxTime agent (some t) } with hst'
      have hhist' : st'.txHistory agent =
          st.txHistory agent ++ [HistEntry.mk t a] := by
        simp [hst', mapSet]
      have hsum' : sumAmounts (st'.txHistory agent) =
          sumAmounts (st.txHistory agent) + a := by
        rw [hhist']
        simp [sumAmounts]
      rw [← hsum']
      apply ih st' hk
      · exact fun p hp => hM p (List.mem_cons_of_mem _ hp)
      · intro p hp e he
        rw [hhist'] at he
        rcases List.mem_append.mp he with h | h
        · exact hwin p (List.mem_cons_of_mem _ hp) e h
        · rcases List.mem_singleton.mp h with rfl
          exact sub_lt_comm.mp (hrel p hp).2
      · rw [hhist', List.length_append]
        have h1 : (((t, a) :: rest).length : ℚ) = rest.length + 1 := by
          push_cast [List.length_cons]
          ring
        rw [h1] at hcount
        push_cast [List.length_singleton]
        linarith
      · intro t' ht' p hp
        have : st'.lastTxTime agent = some t := by simp [hst', mapSet]
        rw [this] at ht'
        cases ht'
        exact (hrel p hp).1
      · exact hpw'
    · rw [if_neg hH, if_neg (by rw [decide_eq_false hH]; simp)]
      congr 1
      apply ih st hk
      · exact fun p hp => hM p (List.mem_cons_of_mem _ hp)
      · exact fun p hp => hwin p (List.mem_cons_of_mem _ hp)
      · have h1 : (((t, a) :: rest).length : ℚ) = rest.length + 1 := by
          push_cast [List.length_cons]
          ring
        rw [h1] at hcount
        linarith
      · exact fun t' ht' p hp => hlast t' ht' p (List.mem_cons_of_mem _ hp)
      · exact hpw'

/-- C4 (corrected): starting from a fresh engine, with amounts within the
per-operation cap, at most K operations and all operations inside one
rolling hour, the k-th operation is approved exactly when the sum of the
PREVIOUSLY APPROVED amounts plus its own stays within the hourly cap H (the
greedy semantics) — denied operations are never recorded, so they do not
count against later operations. -/
theorem hourly_cap_greedy (agent : AgentId) (H M K : ℚ) (ops : List (ℚ × ℚ))
    (hM : ∀ p ∈ ops, p.2 ≤ M)
    (hK : (ops.length : ℚ) ≤ K)
    (hpw : ops.Pairwise fun p q => p.1 ≤ q.1 ∧ q.1 - p.1 < 3600000) :
    (submitOps agent (spendPolicy H M K) ops EngineState.init).1 =
      greedyAllowed H 0 (ops.map Prod.snd) := by
  have h := submitOps_greedy_aux agent H M K ops EngineState.init rfl hM
    (by intro p _ e he; simp [EngineState.init] at he)
    (by simpa [EngineState.init] using hK)
    (by intro t' ht'; simp [EngineState.init] at ht')
    hpw
  simpa [EngineState.init, sumAmounts] using h

/-- C4 counterexample to the claim as stated: with hourly cap H = 10 and
amounts 6, 6, 3 inside one hour, the second operation is denied
(6 + 6 > 10) and therefore not recorded, so the third is approved
(6 + 3 <= 10) even though the prefix sum 6 + 6 + 3 = 15 exceeds H — the
claim predicts denial of the third. -/
theorem hourly_cap_prefix_sum_counterexample :
    (submitOps "a" (spendPolicy 10 100 100)
        [(1000, 6), (2000, 6), (3000, 3)] EngineState.init).1 =
      [true, false, true] ∧
    ¬((6 : ℚ) + 6 + 3 ≤ 10) := by
  constructor
  · decide
  · decide

/-- Closed witness for hourly_cap_greedy. -/
theorem hourly_cap_greedy_witness :
    (submitOps "a" (spendPolicy 10 100 100)
        [(1000, 6), (2000, 6), (3000, 3)] EngineState.init).1 =
      greedyAllowed 10 0 ([((1000 : ℚ), (6 : ℚ)), (2000, 6), (3000, 3)].map Prod.snd) ∧
    greedyAllowed 10 0 ([((1000 : ℚ), (6 : ℚ)), (2000, 6), (3000, 3)].map Prod.snd) =
      [true, false, true] := by
  constructor
  · exact hourly_cap_greedy "a" 10 100 100 [(1000, 6), (2000, 6), (3000, 3)]
      (by decide) (by decide) (by decide)
  · decide

end RatComputation

/-! ### SwarmConsensus (swarm-consensus.ts, config-based variant) -/

/-- Voter postures (swarm-consensus.ts: VoterPerspective). -/
inductive VoterPerspective
  | aggressive
  | conservative
  | systematic
deriving DecidableEq, Repr

/-- A registered voter. -/
structure SwarmVoter where
  agentId : String
  agentName : String
  perspective : VoterPerspective
deriving DecidableEq, Repr

/-- Optional construction-time configuration (SwarmConfig). -/
structure SwarmConfig where
  quorum : Option ℚ
  aggressiveRiskTolerance : Option ℚ
  conservativeThreshold : Option ℚ
  systematicNorm : Option ℚ
deriving DecidableEq, Repr

/-- The SwarmConsensus instance state after construction. -/
structure SwarmConsensus where
  voters : List SwarmVoter
  quorum : ℚ
  aggressiveRiskTolerance : ℚ
  conservativeThreshold : ℚ
  systematicNorm : ℚ
deriving DecidableEq, Repr

/-- One vote (src/types.ts: SwarmVote). -/
structure SwarmVote where
  agentId : String
  agentName : String
  approved : Bool
  confidence : ℚ
  reasoning : String
  timestamp : ℚ
deriving DecidableEq, Repr

/-- Aggregate result (src/types.ts: ConsensusResult). The approval rate is
an Option: none models the IEEE NaN produced by the unguarded 0/0 division
when no voter is registered. -/
structure ConsensusResult where
  proposer : AgentId
  intent : TransactionIntent
  votes : List SwarmVote
  approved : Bool
  quorum : ℚ
  approvalRate : Option ℚ
  timestamp : ℚ
deriving DecidableEq, Repr

/-- utils/helpers.ts lamportsToSol. -/
def lamportsToSol (lamports : ℚ) : ℚ := lamports / 1000000000

/-- JS division as it occurs in propose: the denominator is the vote count
and the numerator is bounded by it, so the only non-real-valued case is
0/0, which yields NaN, modelled as none. -/
def jsDiv (a b : ℚ) : Option ℚ := if b = 0 then none else some (a / b)

/-- JS >= with a possibly-NaN left operand: every comparison against NaN is
false. -/
def jsGe (x : Option ℚ) (q : ℚ) : Bool :=
  match x with
  | none => false
  | some v => decide (q ≤ v)

namespace SwarmConsensus

/-- The constructor, with the nullish-coalescing defaults 0.6, 0.02, 0.015
and 0.005. -/
def create (config : SwarmConfig) : SwarmConsensus :=
  { voters := []
    quorum := config.quorum.getD 0.6
    aggressiveRiskTolerance := config.aggressiveRiskTolerance.getD 0.02
    conservativeThreshold := config.conservativeThreshold.getD 0.015
    systematicNorm := config.systematicNorm.getD 0.005 }

/-- registerVoter. -/
def registerVoter (s : SwarmConsensus) (agentId agentName : String)
    (perspective : VoterPerspective) : SwarmConsensus :=
  { s with voters := s.voters ++ [⟨agentId, agentName, perspective⟩] }

/-- swarm-consensus.ts getIntentAmountInSol: normalizes the intent amount to
SOL-equivalent major units, discriminating on params.type. -/
def getIntentAmountInSol (intent : TransactionIntent) : ℚ :=
  match intent.params with
  | .transferSol _ lamports => lamportsToSol lamports
  | .transferSpl _ _ amount decimals => amount / 10 ^ decimals
  | _ => 0

/-- evaluateAggressive; rand models the single Math.random() draw. -/
def evaluateAggressive (s : SwarmConsensus) (voter : SwarmVoter)
    (amountSol rand now : ℚ) : SwarmVote :=
  let marketSentiment := 0.4 + rand * 0.4
  let riskTolerance := s.aggressiveRiskTolerance
  let sizeOk := decide (amountSol ≤ riskTolerance)
  let sentimentOk := decide ((0.45 : ℚ) < marketSentiment)
  let approved := sizeOk || (decide (amountSol ≤ riskTolerance * 3) && sentimentOk)
  let confidence :=
    if sizeOk then 0.6 + marketSentiment * 0.3 else marketSentiment * 0.6
  { agentId := voter.agentId
    agentName := voter.agentName
    approved := approved
    confidence := min 0.95 confidence
    reasoning :=
      if approved then
        "Market sentiment " ++ toString (marketSentiment * 100) ++
          "% supports this trade. " ++ toString amountSol ++
          " SOL within risk tolerance."
      else
        "Market sentiment " ++ toString (marketSentiment * 100) ++
          "% too uncertain for " ++ toString amountSol ++
          " SOL. Recommend smaller position."
    timestamp := now }

/-- evaluateConservative: deterministic hard cutoff at the configured
threshold. -/
def evaluateConservative (s : SwarmConsensus) (voter : SwarmVoter)
    (amountSol now : ℚ) : SwarmVote :=
  let liquidityThreshold := s.conservativeThreshold
  let approved := decide (amountSol ≤ liquidityThreshold)
  let confidence : ℚ := if approved then 0.7 else 0.3
  { agentId := voter.agentId
    agentName := voter.agentName
    approved := approved
    confidence := confidence
    reasoning :=
      if approved then
        "Amount " ++ toString amountSol ++ " SOL within conservative threshold. " ++
          "Liquidity reserves adequate for this trade size."
      else
        "Amount " ++ toString amountSol ++ " SOL exceeds conservative limit of " ++
          toString liquidityThreshold ++ " SOL. Risk of reserve depletion."
    timestamp := now }

/-- evaluateSystematic: deterministic hard cutoff at twice the configured
norm. -/
def evaluateSystematic (s : SwarmConsensus) (voter : SwarmVoter)
    (amountSol now : ℚ) : SwarmVote :=
  let dcaNorm := s.systematicNorm
  let isConsistent := decide (amountSol ≤ dcaNorm * 2)
  let approved := isConsistent
  let confidence : ℚ := if isConsistent then 0.8 else 0.35
  { agentId := voter.agentId
    agentName := voter.agentName
    approved := approved
    confidence := confidence
    reasoning :=
      if approved then
        "Amount " ++ toString amountSol ++ " SOL consistent with systematic parameters. " ++
          "Fits within normal operational range."
      else
        "Amount " ++ toString amountSol ++ " SOL deviates from systematic norms " ++
          "(typical: " ++ toString dcaNorm ++ " SOL). Appears speculative."
    timestamp := now }

/-- evaluateVote, threading the random stream: only the aggressive posture
consumes a draw. -/
def evaluateVote (s : SwarmConsensus) (voter : SwarmVoter)
    (intent : TransactionIntent) (now : ℚ) (rng : List ℚ) :
    SwarmVote × List ℚ :=
  let amountSol := getIntentAmountInSol intent
  match voter.perspective with
  | .aggressive => (evaluateAggressive s voter amountSol (rng.headD 0) now, rng.tail)
  | .conservative => (evaluateConservative s voter amountSol now, rng)
  | .systematic => (evaluateSystematic s voter amountSol now, rng)

/-- The vote-collection loop of propose, in registration order. -/
def collectVotes (s : SwarmConsensus) (voters : List SwarmVoter)
    (intent : TransactionIntent) (now : ℚ) (rng : List ℚ) : List SwarmVote :=
  match voters with
  | [] => []
  | v :: vs =>
    let r := evaluateVote s v intent now rng
    r.1 :: collectVotes s vs intent now r.2

/-- propose: collect one vote per registered voter, then aggregate with the
unguarded division approvalCount / votes.length and the quorum
comparison. -/
def propose (s : SwarmConsensus) (proposerAgentId : AgentId)
    (intent : TransactionIntent) (now : ℚ) (rng : List ℚ) : ConsensusResult :=
  let votes := collectVotes s s.voters intent now rng
  let approvalCount := (votes.filter fun v => v.approved).length
  let approvalRate := jsDiv approvalCount votes.length
  { proposer := proposerAgentId
    intent := intent
    votes := votes
    approved := jsGe approvalRate s.quorum
    quorum := s.quorum
    approvalRate := approvalRate
    timestamp := now }

end SwarmConsensus

/-- One vote is collected per registered voter. -/
theorem collectVotes_length (s : SwarmConsensus) (voters : List SwarmVoter)
    (intent : TransactionIntent) (now : ℚ) (rng : List ℚ) :
    (SwarmConsensus.collectVotes s voters intent now rng).length = voters.length := by
  induction voters generalizing rng with
  | nil => rfl
  | cons v vs ih => simp [SwarmConsensus.collectVotes, ih]

section RatComputation2

attribute [local semireducible] Rat.add Rat.sub Rat.mul Rat.inv Rat.ofScientific

/-- C5: with at least one registered voter, propose reports
approvalRate = approvals / N (N the number of registered voters) and
approved exactly when that rate is at least the configured quorum —
whatever the individual votes turn out to be. -/
theorem propose_quorum_arithmetic (s : SwarmConsensus) (proposer : AgentId)
    (intent : TransactionIntent) (now : ℚ) (rng : List ℚ)
    (hN : s.voters ≠ []) :
    (SwarmConsensus.propose s proposer intent now rng).approvalRate =
      some ((((SwarmConsensus.propose s proposer intent now rng).votes.filter
          fun v => v.approved).length : ℚ) / (s.voters.length : ℚ)) ∧
    (SwarmConsensus.propose s proposer intent now rng).approved =
      decide (s.quorum ≤
        (((SwarmConsensus.propose s proposer intent now rng).votes.filter
          fun v => v.approved).length : ℚ) / (s.voters.length : ℚ)) := by
  have hlen : (SwarmConsensus.collectVotes s s.voters intent now rng).length =
      s.voters.length := collectVotes_length s s.voters intent now rng
  have hne : ((s.voters.length : ℚ)) ≠ 0 := by
    exact_mod_cast fun h => hN (List.length_eq_zero.mp h)
  constructor
  · simp only [SwarmConsensus.propose, jsDiv, hlen, if_neg hne]
  · simp only [SwarmConsensus.propose, jsDiv, hlen, if_neg hne, jsGe]

/-- Closed witness for propose_quorum_arithmetic: one conservative voter,
default configuration, a 0.005 SOL transfer. -/
theorem propose_quorum_arithmetic_witness :
    ((SwarmConsensus.create ⟨none, none, none, none⟩).registerVoter
        "agent-lp" "LiquidityBot" .conservative).voters ≠ [] ∧
    (SwarmConsensus.propose
        ((SwarmConsensus.create ⟨none, none, none, none⟩).registerVoter
          "agent-lp" "LiquidityBot" .conservative)
        "agent-lp" sampleIntent 0 []).approvalRate =
      some (((((SwarmConsensus.propose
          ((SwarmConsensus.create ⟨none, none, none, none⟩).registerVoter
            "agent-lp" "LiquidityBot" .conservative)
          "agent-lp" sampleIntent 0 []).votes.filter
            fun v => v.approved).length : ℚ)) /
        ((((SwarmConsensus.create ⟨none, none, none, none⟩).registerVoter
          "agent-lp" "LiquidityBot" .conservative).voters.length : ℚ))) := by
  constructor
  · decide
  · exact (propose_quorum_arithmetic _ "agent-lp" sampleIntent 0 [] (by decide)).1

/-- C10: with no registered voter, the vote list is empty, the approval rate
is the unguarded 0/0 — NaN, modelled none — and the proposal is rejected
for every quorum value, every intent and every random draw. -/
theorem propose_empty_voters (s : SwarmConsensus) (proposer : AgentId)
    (intent : TransactionIntent) (now : ℚ) (rng : List ℚ)
    (h : s.voters = []) :
    (SwarmConsensus.propose s proposer intent now rng).votes = [] ∧
    (SwarmConsensus.propose s proposer intent now rng).approvalRate = none ∧
    (SwarmConsensus.propose s proposer intent now rng).approved = false := by
  have hv : SwarmConsensus.collectVotes s s.voters intent now rng = [] := by
    rw [h]
    rfl
  refine ⟨?_, ?_, ?_⟩ <;>
    simp [SwarmConsensus.propose, hv, jsDiv, jsGe]

/-- Closed witness for propose_empty_voters. -/
theorem propose_empty_voters_witness :
    (SwarmConsensus.create ⟨none, none, none, none⟩).voters = [] ∧
    (SwarmConsensus.propose (SwarmConsensus.create ⟨none, none, none, none⟩)
        "nobody" sampleIntent 0 []).approvalRate = none ∧
    (SwarmConsensus.propose (SwarmConsensus.create ⟨none, none, none, none⟩)
        "nobody" sampleIntent 0 []).approved = false := by
  refine ⟨rfl, ?_, ?_⟩
  · exact (propose_empty_voters _ "nobody" sampleIntent 0 [] rfl).2.1
  · exact (propose_empty_voters _ "nobody" sampleIntent 0 [] rfl).2.2

/-- C8: the conservative and systematic posture functions never consult the
random stream — their approved/confidence outcome is identical across any
two draws — and each applies a hard cutoff: conservative approves exactly
when the amount is at most its threshold (0.015 by default), systematic
exactly when the amount is at most twice its norm (2 x 0.005 = 0.01 by
default). -/
theorem deterministic_posture_cutoffs :
    (∀ (s : SwarmConsensus) (voter : SwarmVoter) (intent : TransactionIntent)
        (now : ℚ) (rng1 rng2 : List ℚ),
      voter.perspective = .conservative →
        (SwarmConsensus.evaluateVote s voter intent now rng1).1 =
          (SwarmConsensus.evaluateVote s voter intent now rng2).1) ∧
    (∀ (s : SwarmConsensus) (voter : SwarmVoter) (intent : TransactionIntent)
        (now : ℚ) (rng1 rng2 : List ℚ),
      voter.perspective = .systematic →
        (SwarmConsensus.evaluateVote s voter intent now rng1).1 =
          (SwarmConsensus.evaluateVote s voter intent now rng2).1) ∧
    (∀ (s : SwarmConsensus) (voter : SwarmVoter) (amountSol now : ℚ),
      (SwarmConsensus.evaluateConservative s voter amountSol now).approved =
        decide (amountSol ≤ s.conservativeThreshold)) ∧
    (∀ (s : SwarmConsensus) (voter : SwarmVoter) (amountSol now : ℚ),
      (SwarmConsensus.evaluateSystematic s voter amountSol now).approved =
        decide (amountSol ≤ s.systematicNorm * 2)) ∧
    (SwarmConsensus.create ⟨none, none, none, none⟩).conservativeThreshold = 0.015 ∧
    (SwarmConsensus.create ⟨none, none, none, none⟩).systematicNorm * 2 = 0.01 := by
  refine ⟨?_, ?_, fun _ _ _ _ => rfl, fun _ _ _ _ => rfl, rfl, by decide⟩
  · intro s voter intent now rng1 rng2 h
    unfold SwarmConsensus.evaluateVote
    rw [h]
  · intro s voter intent now rng1 rng2 h
    unfold SwarmConsensus.evaluateVote
    rw [h]

/-- Closed witness for deterministic_posture_cutoffs: an amount of 0.1 SOL
is rejected by both postures under the default configuration, regardless of
the random stream. -/
theorem deterministic_posture_cutoffs_witness :
    (SwarmConsensus.evaluateVote (SwarmConsensus.create ⟨none, none, none, none⟩)
        ⟨"agent-lp", "LiquidityBot", .conservative⟩ sampleIntent 0 [0.99]).1 =
      (SwarmConsensus.evaluateVote (SwarmConsensus.create ⟨none, none, none, none⟩)
        ⟨"agent-lp", "LiquidityBot", .conservative⟩ sampleIntent 0 [0.01]).1 ∧
    (SwarmConsensus.evaluateConservative
        (SwarmConsensus.create ⟨none, none, none, none⟩)
        ⟨"agent-lp", "LiquidityBot", .conservative⟩ 0.1 0).approved =
      decide ((0.1 : ℚ) ≤
        (SwarmConsensus.create ⟨none, none, none, none⟩).conservativeThreshold) ∧
    (SwarmConsensus.evaluateSystematic
        (SwarmConsensus.create ⟨none, none, none, none⟩)
        ⟨"agent-dca", "DCABot", .systematic⟩ 0.1 0).approved =
      decide ((0.1 : ℚ) ≤
        (SwarmConsensus.create ⟨none, none, none, none⟩).systematicNorm * 2) ∧
    decide ((0.1 : ℚ) ≤
        (SwarmConsensus.create ⟨none, none, none, none⟩).conservativeThreshold) = false ∧
    decide ((0.1 : ℚ) ≤
        (SwarmConsensus.create ⟨none, none, none, none⟩).systematicNorm * 2) = false := by
  refine ⟨?_, ?_, ?_, ?_, ?_⟩
  · exact deterministic_posture_cutoffs.1 _ _ sampleIntent 0 [0.99] [0.01] rfl
  · exact deterministic_posture_cutoffs.2.2.1 _ _ 0.1 0
  · exact deterministic_posture_cutoffs.2.2.2.1 _ _ 0.1 0
  · decide
  · decide

end RatComputation2

/-! ### NLPIntentTranslate (nlp-intent-parser.ts)

The fixed patterns of the source are JS regular expressions, matched
unanchored (leftmost position first). Each one is translated below into a
character-level matcher. Maximal munch is used for the whitespace and
digit-class runs: it is equivalent to the regex backtracking semantics for
these patterns because in every pattern the token following such a run can
never consume a character of the run (a literal never starts with
whitespace, a digit or a separator there). Optional groups are tried
greedily and skipped when their inside fails, as the regex engine does;
the single case where a failing continuation makes the engine retry
without the group — the optional agent prefix before the final greedy
capture — is implemented with an explicit fallback. -/

/-- JS \s (ASCII subset; the inputs here contain no exotic whitespace). -/
def isWsChar (c : Char) : Bool :=
  c == ' ' || c == '\t' || c == '\n' || c == '\r'

/-- JS \w on lowercased input. -/
def isWordChar (c : Char) : Bool :=
  c.isDigit || ('a' ≤ c && c ≤ 'z') || c == '_'

/-- The character class [\d,_] of the token-amount patterns. -/
def isNumSepChar (c : Char) : Bool := c.isDigit || c == ',' || c == '_'

/-- String.prototype.toLowerCase for ASCII. -/
def asciiLower (c : Char) : Char :=
  if 'A' ≤ c && c ≤ 'Z' then Char.ofNat (c.toNat + 32) else c

/-- toLowerCase on a character list. -/
def lowerChars (s : List Char) : List Char := s.map asciiLower

/-- String.prototype.trim (ASCII whitespace). -/
def trimChars (s : List Char) : List Char :=
  ((s.dropWhile isWsChar).reverse.dropWhile isWsChar).reverse

/-- The apostrophe character. -/
def apos : Char := Char.ofNat 39

/-- Decimal digit-run value. -/
def digitsToNat (ds : List Char) : ℕ :=
  ds.foldl (fun n c => 10 * n + (c.toNat - 48)) 0

/-- parseFloat on a matched numeric literal: integer digits and fractional
digits. -/
def parseDec (ip fp : List Char) : ℚ :=
  (digitsToNat ip : ℚ) + (digitsToNat fp : ℚ) / 10 ^ fp.length

/-- Match a literal, returning the rest. -/
def stripLit : List Char → List Char → Option (List Char)
  | [], cs => some cs
  | _ :: _, [] => none
  | l :: ls, c :: cs => if c = l then stripLit ls cs else none

/-- \s+ by maximal munch. -/
def ws1 : List Char → Option (List Char)
  | [] => none
  | c :: cs => if isWsChar c then some (cs.dropWhile isWsChar) else none

/-- \s* by maximal munch. -/
def wsStar (cs : List Char) : List Char := cs.dropWhile isWsChar

/-- First alternative of a keyword alternation that matches as a prefix
(the alternatives used here start with pairwise distinct letters, so this
is the regex alternation semantics). -/
def matchKeywordAlt (alts : List (List Char)) (cs : List Char) :
    Option (List Char) :=
  match alts with
  | [] => none
  | a :: rest =>
    match stripLit a cs with
    | some r => some r
    | none => matchKeywordAlt rest cs

/-- The numeric pattern \d+\.?\d* of the SOL-amount matchers, with its
parseFloat value. -/
def matchNumSolPattern (cs : List Char) : Option (ℚ × List Char) :=
  let ds := cs.takeWhile Char.isDigit
  let r1 := cs.dropWhile Char.isDigit
  if ds.isEmpty then none
  else
    match r1 with
    | '.' :: r2 =>
      let fs := r2.takeWhile Char.isDigit
      let r3 := r2.dropWhile Char.isDigit
      some (parseDec ds fs, r3)
    | _ => some (parseDec ds [], r1)

/-- The numeric pattern [\d,_]+(?:\.\d+)? of the token-amount matchers,
with separators stripped before evaluation as the source does. (A capture
consisting solely of separators would make the source compute NaN; such an
input never reaches an amount, and the claims never exercise it.) -/
def matchNumSepPattern (cs : List Char) : Option (ℚ × List Char) :=
  let ns := cs.takeWhile isNumSepChar
  let r1 := cs.dropWhile isNumSepChar
  if ns.isEmpty then none
  else
    match r1 with
    | '.' :: rd =>
      let fs := rd.takeWhile Char.isDigit
      let r3 := rd.dropWhile Char.isDigit
      if fs.isEmpty then some (parseDec (ns.filter Char.isDigit) [], r1)
      else some (parseDec (ns.filter Char.isDigit) fs, r3)
    | _ => some (parseDec (ns.filter Char.isDigit) [], r1)

/-- Leftmost-position regex search: try the position matcher at every
suffix, leftmost first. -/
def scanPositions {α : Type} (f : List Char → Option α) :
    List Char → Option α
  | [] => f []
  | c :: cs =>
    match f (c :: cs) with
    | some r => some r
    | none => scanPositions f cs

/-- Shared tail \s+to\s+(?:agent\s+)?(.+) of the two transfer patterns,
returning the raw capture of (.+) (greedy up to a newline). If taking the
optional agent prefix leaves the final capture empty the engine would
retry without it — hence the fallback. -/
def targetTail (cs : List Char) : Option (List Char) :=
  match ws1 cs with
  | none => none
  | some r6 =>
  match stripLit "to".data r6 with
  | none => none
  | some r7 =>
  match ws1 r7 with
  | none => none
  | some r8 =>
    let afterAgent : Option (List Char) :=
      match stripLit "agent".data r8 with
      | some ra => ws1 ra
      | none => none
    let cand :=
      match afterAgent with
      | some rb => if (rb.takeWhile fun c => c != '\n').isEmpty then r8 else rb
      | none => r8
    let tgt := cand.takeWhile fun c => c != '\n'
    if tgt.isEmpty then none else some tgt

/-- Position matcher for
(?:send|transfer|pay)\s+(\d+\.?\d*)\s*sol\s+to\s+(?:agent\s+)?(.+) —
returns the parsed amount and the raw target capture. -/
def transferSolAt (cs : List Char) : Option (ℚ × List Char) :=
  match matchKeywordAlt ["send".data, "transfer".data, "pay".data] cs with
  | none => none
  | some r1 =>
  match ws1 r1 with
  | none => none
  | some r2 =>
  match matchNumSolPattern r2 with
  | none => none
  | some (amount, r3) =>
  match stripLit "sol".data (wsStar r3) with
  | none => none
  | some r5 =>
  match targetTail r5 with
  | none => none
  | some tgt => some (amount, tgt)

/-- Position matcher for the create-token pattern; returns the optional
decimals capture. Everything after the token keyword is optional, so the
match succeeds as soon as the keyword part does. -/
def createTokenAt (cs : List Char) : Option (Option ℕ) :=
  match matchKeywordAlt
      ["create".data, "make".data, "deploy".data, "launch".data] cs with
  | none => none
  | some r1 =>
  match ws1 r1 with
  | none => none
  | some r2 =>
  let r3 :=
    match stripLit "a".data r2 with
    | some ra => match ws1 ra with | some rb => rb | none => r2
    | none => r2
  let r4 :=
    match stripLit "new".data r3 with
    | some ra => match ws1 ra with | some rb => rb | none => r3
    | none => r3
  match matchKeywordAlt ["token".data, "mint".data, "spl".data] r4 with
  | none => none
  | some r5 =>
    let r6 :=
      (do
        let ra ← ws1 r5
        let rb ← matchKeywordAlt ["called".data, "named".data] ra
        let rc ← ws1 rb
        let wchars := rc.takeWhile isWordChar
        let rd := rc.dropWhile isWordChar
        if wchars.isEmpty then none else some rd).getD r5
    let dec : Option ℕ := do
      let ra ← ws1 r6
      let rb ← stripLit "with".data ra
      let rc ← ws1 rb
      let ds := rc.takeWhile Char.isDigit
      let rd := rc.dropWhile Char.isDigit
      if ds.isEmpty then none
      else do
        let re ← ws1 rd
        let _ ← stripLit "decimals".data re
        pure (digitsToNat ds)
    some dec

/-- The \s*(k|m|b)?\s*tokens? suffix of the token-amount patterns: optional
magnitude suffix, then the literal with an optional plural s. Returns the
multiplier and the rest after the literal (the plural s, when present, is
consumed greedily). -/
def tokensSuffix (cs : List Char) : Option (ℚ × List Char) :=
  let r4 := wsStar cs
  let mult : ℚ × List Char :=
    match r4 with
    | 'k' :: rest => (1000, rest)
    | 'm' :: rest => (1000000, rest)
    | 'b' :: rest => (1000000000, rest)
    | _ => (1, r4)
  match stripLit "token".data (wsStar mult.2) with
  | none => none
  | some r7 =>
    match r7 with
    | 's' :: r8 => some (mult.1, r8)
    | _ => some (mult.1, r7)

/-- Position matcher for mint\s+([\d,_]+(?:\.\d+)?)\s*(k|m|b)?\s*tokens? —
returns the amount with its magnitude multiplier applied. -/
def mintTokensAt (cs : List Char) : Option ℚ :=
  match stripLit "mint".data cs with
  | none => none
  | some r1 =>
  match ws1 r1 with
  | none => none
  | some r2 =>
  match matchNumSepPattern r2 with
  | none => none
  | some (val, r3) =>
  match tokensSuffix r3 with
  | none => none
  | some (mult, _) => some (val * mult)

/-- Position matcher for
(?:send|transfer|distribute)\s+([\d,_]+(?:\.\d+)?)\s*(k|m|b)?\s*tokens?\s+to\s+(?:agent\s+)?(.+). -/
def transferTokensAt (cs : List Char) : Option (ℚ × List Char) :=
  match matchKeywordAlt ["send".data, "transfer".data, "distribute".data] cs with
  | none => none
  | some r1 =>
  match ws1 r1 with
  | none => none
  | some r2 =>
  match matchNumSepPattern r2 with
  | none => none
  | some (val, r3) =>
  match tokensSuffix r3 with
  | none => none
  | some (mult, r4) =>
  match targetTail r4 with
  | none => none
  | some tgt => some (val * mult, tgt)

/-- Position matcher for (?:airdrop|get|request|fund)\s+(\d+\.?\d*)\s*sol. -/
def airdropAt (cs : List Char) : Option ℚ :=
  match matchKeywordAlt
      ["airdrop".data, "get".data, "request".data, "fund".data] cs with
  | none => none
  | some r1 =>
  match ws1 r1 with
  | none => none
  | some r2 =>
  match matchNumSolPattern r2 with
  | none => none
  | some (amount, r3) =>
  match stripLit "sol".data (wsStar r3) with
  | none => none
  | some _ => some amount

/-- Position matcher for
(?:check|show|get|what(?:'s| is))\s*(?:my\s+)?balance. -/
def balanceAt (cs : List Char) : Option Unit :=
  let kw : Option (List Char) :=
    match stripLit "check".data cs with
    | some r => some r
    | none =>
    match stripLit "show".data cs with
    | some r => some r
    | none =>
    match stripLit "get".data cs with
    | some r => some r
    | none =>
    match stripLit "what".data cs with
    | some r =>
      (match r with
       | c :: 's' :: rest2 => if c = apos then some rest2 else stripLit " is".data r
       | _ => stripLit " is".data r)
    | none => none
  match kw with
  | none => none
  | some r1 =>
  let r2 := wsStar r1
  let r3 :=
    match stripLit "my".data r2 with
    | some ra => match ws1 ra with | some rb => rb | none => r2
    | none => r2
  match stripLit "balance".data r3 with
  | none => none
  | some _ => some ()

/-- A name-registry entry (nlp-intent-parser.ts: AgentEntry). -/
structure AgentEntry where
  agentId : String
  publicKey : String
  name : String
deriving DecidableEq, Repr

/-- The name-to-identity registry (a JS Map keyed by lowercased names and
ids), as an association list in insertion order. -/
abbrev AgentRegistry := List (String × AgentEntry)

/-- Map.set: overwrite in place or append. -/
def registrySet (m : AgentRegistry) (k : String) (v : AgentEntry) :
    AgentRegistry :=
  if m.any fun p => p.1 == k then
    m.map fun p => if p.1 == k then (k, v) else p
  else m ++ [(k, v)]

/-- Map.get. -/
def registryGet (m : AgentRegistry) (k : String) : Option AgentEntry :=
  (m.find? fun p => p.1 == k).map Prod.snd

/-- toLowerCase on a String. -/
def lowerString (s : String) : String := String.mk (lowerChars s.data)

/-- registerAgent: the entry is stored under both the lowercased name and
the lowercased agent id. -/
def registerAgent (m : AgentRegistry) (name agentId publicKey : String) :
    AgentRegistry :=
  let e : AgentEntry := ⟨agentId, publicKey, name⟩
  registrySet (registrySet m (lowerString name) e) (lowerString agentId) e

/-- resolveTarget: registry lookup first, then the raw text as a literal
public key. tryPk models the vendor base58 PublicKey validation (out of
scope per the spec), returning the canonical base58 form when valid. -/
def resolveTarget (reg : AgentRegistry) (tryPk : String → Option String)
    (target : String) : Option AgentEntry :=
  match registryGet reg (lowerString target) with
  | some e => some e
  | none =>
    match tryPk target with
    | some b58 => some ⟨target, b58, target.take 8 ++ "..."⟩
    | none => none

/-- Math.round (JS rounds half toward positive infinity). -/
def jsRound (q : ℚ) : ℚ := ((⌊q + 1 / 2⌋ : ℤ) : ℚ)

/-- A parse outcome (src/types.ts: NLPResult, with its variants as
constructors). -/
inductive NLPResult
  | transferSol (intent : TransactionIntent) (message : String)
  | createToken (decimals : ℕ) (message : String)
  | mintTokens (amount : ℚ) (mint : Option String) (message : String)
  | transferSpl (intent : TransactionIntent) (message : String)
  | airdrop (amount lamports : ℚ) (message : String)
  | balance (message : String)
  | unknown (message : String)
deriving DecidableEq, Repr

/-- The intent carried by a parse outcome, when any. -/
def NLPResult.intentOf : NLPResult → Option TransactionIntent
  | .transferSol i _ => some i
  | .transferSpl i _ => some i
  | _ => none

/-- Whether a parse outcome is the unparseable marker. -/
def NLPResult.isUnknown : NLPResult → Bool
  | .unknown _ => true
  | _ => false

namespace NLPIntent

/-- nlp-intent-parser.ts parseTransferSol. -/
def parseTransferSol (reg : AgentRegistry) (tryPk : String → Option String)
    (input : List Char) (agentId : AgentId) (now : ℚ) : Option NLPResult :=
  match scanPositions transferSolAt input with
  | none => none
  | some (amount, tgtRaw) =>
    let target := String.mk (trimChars tgtRaw)
    match resolveTarget reg tryPk target with
    | none => none
    | some resolved =>
      let lamports := jsRound (amount * 1000000000)
      some (.transferSol
        { agentId := agentId
          type := .TRANSFER_SOL
          description := "NLP: Send " ++ toString amount ++ " SOL to " ++
            resolved.name
          params := .transferSol resolved.publicKey lamports
          timestamp := now
          confidence := 0.9 }
        ("-> Send " ++ toString amount ++ " SOL to " ++ resolved.name))

/-- nlp-intent-parser.ts parseCreateToken. -/
def parseCreateToken (input : List Char) : Option NLPResult :=
  match scanPositions createTokenAt input with
  | none => none
  | some decCapture =>
    let decimals := decCapture.getD 6
    some (.createToken decimals
      ("-> Create SPL token mint (" ++ toString decimals ++ " decimals)"))

/-- nlp-intent-parser.ts parseMintTokens. -/
def parseMintTokens (mint : Option String) (input : List Char) :
    Option NLPResult :=
  match scanPositions mintTokensAt input with
  | none => none
  | some amount =>
    some (.mintTokens amount mint ("-> Mint " ++ toString amount ++ " tokens"))

/-- nlp-intent-parser.ts parseTransferTokens. -/
def parseTransferTokens (reg : AgentRegistry) (tryPk : String → Option String)
    (mint : Option String) (dec : ℕ) (input : List Char) (agentId : AgentId)
    (now : ℚ) : Option NLPResult :=
  match scanPositions transferTokensAt input with
  | none => none
  | some (amount, tgtRaw) =>
    let target := String.mk (trimChars tgtRaw)
    match resolveTarget reg tryPk target, mint with
    | some resolved, some m =>
      some (.transferSpl
        { agentId := agentId
          type := .TRANSFER_SPL
          description := "NLP: Transfer " ++ toString amount ++ " tokens to " ++
            resolved.name
          params := .transferSpl resolved.publicKey m (amount * 10 ^ dec) dec
          timestamp := now
          confidence := 0.9 }
        ("-> Transfer " ++ toString amount ++ " tokens to " ++ resolved.name))
    | _, _ => none

/-- nlp-intent-parser.ts parseAirdrop. -/
def parseAirdrop (input : List Char) : Option NLPResult :=
  match scanPositions airdropAt input with
  | none => none
  | some amount =>
    some (.airdrop amount (jsRound (amount * 1000000000))
      ("-> Request " ++ toString amount ++ " SOL airdrop"))

/-- nlp-intent-parser.ts parseBalance. -/
def parseBalance (input : List Char) : Option NLPResult :=
  match scanPositions balanceAt input with
  | none => none
  | some _ => some (.balance "-> Query wallet balance")

/-- nlp-intent-parser.ts parse: trim and lowercase, then the fixed matcher
chain in source order, then the optional model-assisted fallback (injected
as an optional outcome, none when unconfigured or failed), else the
unparseable marker. -/
def parse (reg : AgentRegistry) (tryPk : String → Option String)
    (mint : Option String) (dec : ℕ) (llm : Option NLPResult)
    (input : String) (agentId : AgentId) (now : ℚ) : NLPResult :=
  let lower := lowerChars (trimChars input.data)
  let fixedResult :=
    match parseTransferSol reg tryPk lower agentId now with
    | some r => some r
    | none =>
    match parseCreateToken lower with
    | some r => some r
    | none =>
    match parseMintTokens mint lower with
    | some r => some r
    | none =>
    match parseTransferTokens reg tryPk mint dec lower agentId now with
    | some r => some r
    | none =>
    match parseAirdrop lower with
    | some r => some r
    | none => parseBalance lower
  match fixedResult with
  | some r => r
  | none =>
    match llm with
    | some r => r
    | none =>
      .unknown ("Could not parse: \"" ++ input ++
        "\". Try: \"send 0.01 SOL to agent <name>\"")

end NLPIntent

/-- A registry with the single agent Bob. -/
def bobRegistry : AgentRegistry :=
  registerAgent [] "Bob" "agent-bob" "BobPubKey11111111111111111111111111111111111"

section RatComputation3

attribute [local semireducible] Rat.add Rat.sub Rat.mul Rat.inv Rat.ofScientific

/-- C9 counterexample to the claim as stated: the transfer pattern requires
the literal currency keyword, so the text without it parses to the
unparseable marker, not to a value-transfer proposal — even with Bob
registered. (The literal "bob" is not a valid base58 32-byte key, so the
vendor fallback resolves nothing, modelled by the always-none tryPk.) -/
theorem nlp_send_without_sol_counterexample :
    (NLPIntent.parse bobRegistry (fun _ => none) none 6 none
        "send 0.01 to agent Bob" "caller" 0).isUnknown = true ∧
    (NLPIntent.parse bobRegistry (fun _ => none) none 6 none
        "send 0.01 to agent Bob" "caller" 0).intentOf = none := by
  constructor
  · decide
  · decide

/-- C9 (corrected): with the currency keyword the pattern requires — input
"send 0.01 SOL to agent Bob" — and Bob registered, parse returns a
value-transfer proposal with confidence 0.9 whose lamports amount is
round(0.01e9) = 10000000, addressed to the registered public key. -/
theorem nlp_send_with_sol_amended :
    ((NLPIntent.parse bobRegistry (fun _ => none) none 6 none
        "send 0.01 SOL to agent Bob" "caller" 0).intentOf.map
      fun i => (i.type, i.confidence, i.params)) =
      some (.TRANSFER_SOL, 0.9,
        .transferSol "BobPubKey11111111111111111111111111111111111" 10000000) := by
  decide

end RatComputation3

end AgenticWallet
